import Mathlib

/-!
Verification of the shareX relay server (`socket-server.ts`) and the call-room
mesh coordinator (`src/components/CallRoom.tsx`) against their natural-language
specification.  The TypeScript sources are shallowly embedded: JavaScript
`Map<string, V>` values become association lists with `mapGet`/`mapSet`/
`mapDelete`, socket emissions become explicit lists of `(target, event)` pairs,
and `Date.now()` becomes an explicit `now : Nat` parameter.
-/

/-! ## Association-list model of JavaScript `Map<string, V>` -/

/-- Model of `Map.get`: the value at the first matching key, if any. -/
def mapGet {α : Type} (m : List (String × α)) (k : String) : Option α :=
  match m with
  | [] => none
  | (k', v) :: rest => if k' = k then some v else mapGet rest k

/-- Model of `Map.set`: replace the value at the key in place, else append
(JavaScript maps preserve insertion order). -/
def mapSet {α : Type} (m : List (String × α)) (k : String) (v : α) :
    List (String × α) :=
  match m with
  | [] => [(k, v)]
  | (k', v') :: rest =>
      if k' = k then (k, v) :: rest else (k', v') :: mapSet rest k v

/-- Model of `Map.delete`: drop the entries at the key. -/
def mapDelete {α : Type} (m : List (String × α)) (k : String) :
    List (String × α) :=
  match m with
  | [] => []
  | (k', v') :: rest =>
      if k' = k then mapDelete rest k else (k', v') :: mapDelete rest k

theorem mapGet_mapSet_self {α : Type} (m : List (String × α)) (k : String)
    (v : α) : mapGet (mapSet m k v) k = some v := by
  induction m with
  | nil => simp [mapSet, mapGet]
  | cons hd tl ih =>
      obtain ⟨k', v'⟩ := hd
      by_cases h : k' = k
      · simp [mapSet, mapGet, h]
      · simp [mapSet, mapGet, h, ih]

theorem mapGet_mapSet_ne {α : Type} (m : List (String × α)) (k k' : String)
    (v : α) (h : k' ≠ k) : mapGet (mapSet m k v) k' = mapGet m k' := by
  have h' : ¬(k = k') := fun hh => h hh.symm
  induction m with
  | nil => simp [mapSet, mapGet, h']
  | cons hd tl ih =>
      obtain ⟨k₀, v₀⟩ := hd
      by_cases hk : k₀ = k
      · subst hk
        simp [mapSet, mapGet, h']
      · simp only [mapSet, hk, if_neg hk, mapGet]
        by_cases hk' : k₀ = k'
        · simp [hk']
        · simp [hk', ih]

theorem mapSet_mapSet {α : Type} (m : List (String × α)) (k : String)
    (v v' : α) : mapSet (mapSet m k v) k v' = mapSet m k v' := by
  induction m with
  | nil => simp [mapSet]
  | cons hd tl ih =>
      obtain ⟨k₀, v₀⟩ := hd
      by_cases hk : k₀ = k
      · simp [mapSet, hk]
      · simp [mapSet, hk, ih]

theorem length_mapSet_le {α : Type} (m : List (String × α)) (k : String)
    (v : α) : (mapSet m k v).length ≤ m.length + 1 := by
  induction m with
  | nil => simp [mapSet]
  | cons hd tl ih =>
      obtain ⟨k₀, v₀⟩ := hd
      by_cases hk : k₀ = k
      · simp [mapSet, hk]
      · simpa [mapSet, hk] using Nat.succ_le_succ ih

theorem length_mapDelete_le {α : Type} (m : List (String × α)) (k : String) :
    (mapDelete m k).length ≤ m.length := by
  induction m with
  | nil => simp [mapDelete]
  | cons hd tl ih =>
      obtain ⟨k₀, v₀⟩ := hd
      by_cases hk : k₀ = k
      · simp [mapDelete, hk]
        omega
      · simpa [mapDelete, hk] using Nat.succ_le_succ ih

theorem all_mapSet {α : Type} (m : List (String × α)) (k : String) (v : α)
    (p : String × α → Bool) (hm : m.all p = true) (hv : p (k, v) = true) :
    (mapSet m k v).all p = true := by
  induction m with
  | nil => simp [mapSet, hv]
  | cons hd tl ih =>
      obtain ⟨k₀, v₀⟩ := hd
      simp only [List.all_cons, Bool.and_eq_true] at hm
      by_cases hk : k₀ = k
      · simp [mapSet, hk, hv, hm.2]
      · simp [mapSet, hk, hm.1, ih hm.2]

theorem all_mapDelete {α : Type} (m : List (String × α)) (k : String)
    (p : String × α → Bool) (hm : m.all p = true) :
    (mapDelete m k).all p = true := by
  induction m with
  | nil => simp [mapDelete]
  | cons hd tl ih =>
      obtain ⟨k₀, v₀⟩ := hd
      simp only [List.all_cons, Bool.and_eq_true] at hm
      by_cases hk : k₀ = k
      · simp [mapDelete, hk, ih hm.2]
      · simp [mapDelete, hk, hm.1, ih hm.2]

/-! ## Server data model (socket-server.ts) -/

/-- `MAX_FILE_SIZE = 4 * 1024 * 1024` (4MB). -/
def MAX_FILE_SIZE : Nat := 4 * 1024 * 1024

/-- `MAX_CODE_SIZE = 500 * 1024` (500KB). -/
def MAX_CODE_SIZE : Nat := 500 * 1024

/-- `MAX_ROOM_SIZE = 50` (max users per room). -/
def MAX_ROOM_SIZE : Nat := 50

/-- `UserInfo` from socket-server.ts (cursor/selection omitted: no claim
touches them). -/
structure UserInfo where
  id : String
  name : String
  color : String
  deriving Repr, DecidableEq

/-- `ChatMessage` from socket-server.ts. -/
structure ChatMessage where
  id : String
  userId : String
  userName : String
  userColor : String
  message : String
  timestamp : Nat
  deriving Repr, DecidableEq

/-- `FileData` from socket-server.ts. -/
structure FileData where
  name : String
  size : Nat
  type : String
  data : String
  uploadedAt : Nat
  deriving Repr, DecidableEq

/-- Call type tag (`"audio" | "video"`). -/
inductive CallType
  | audio
  | video
  deriving Repr, DecidableEq

/-- Kind-specific fields of the tagged union
`RoomData = CodeRoomData | FileRoomData | CallRoomData`. -/
inductive RoomPayload
  | codeP (code : String) (language : String) (theme : String)
  | fileP (file : Option FileData)
  | callP (callType : CallType)
  deriving Repr, DecidableEq

/-- Shared fields of the three room interfaces, plus the kind-specific
payload.  The `type` discriminator of the TypeScript union is the
constructor of `payload`. -/
structure RoomData where
  payload : RoomPayload
  users : List (String × UserInfo)
  messages : List ChatMessage
  createdAt : Nat
  deriving Repr, DecidableEq

/-- Reading `room.code` through the unchecked `as CodeRoomData` cast:
`undefined` (modelled as `none`) on non-code rooms. -/
def codeOf : RoomPayload → Option String
  | .codeP c _ _ => some c
  | _ => none

/-- Reading `room.file` through the unchecked `as FileRoomData` cast. -/
def fileOf : RoomPayload → Option FileData
  | .fileP f => f
  | _ => none

/-- Reading `room.language` through the unchecked cast. -/
def languageOf : RoomPayload → Option String
  | .codeP _ l _ => some l
  | _ => none

/-- Reading `room.theme` through the unchecked cast. -/
def themeOf : RoomPayload → Option String
  | .codeP _ _ t => some t
  | _ => none

/-- Whether the stored room is a code room (`room.type === "code"`). -/
def isCodePayload : RoomPayload → Bool
  | .codeP _ _ _ => true
  | _ => false

/-- Whether the stored room is a file room (`room.type === "file"`). -/
def isFilePayload : RoomPayload → Bool
  | .fileP _ => true
  | _ => false

/-- Whether the stored room is a call room (`room.type === "call"`). -/
def isCallPayload : RoomPayload → Bool
  | .callP _ => true
  | _ => false

/-! ## Rate limiter -/

/-- One `{ count, resetAt }` entry of the rate-limiter map. -/
structure RateEntry where
  count : Nat
  resetAt : Nat
  deriving Repr, DecidableEq

/-- The `RATE_LIMITS` table of socket-server.ts; absent keys are
not rate limited. -/
def rateLimitFor (event : String) : Option Nat :=
  if event = "code-change" then some 10
  else if event = "chat-message" then some 5
  else if event = "cursor-move" then some 20
  else none

/-- Core of `checkRateLimit` acting on one `(socketId, event)` entry:
if no entry or the window expired, start a fresh window with count 1 and
allow; if the count reached the limit, deny without touching the entry;
otherwise increment and allow. -/
def rateStep (limit : Nat) (entry : Option RateEntry) (now : Nat) :
    Bool × RateEntry :=
  match entry with
  | none => (true, ⟨1, now + 1000⟩)
  | some e =>
      if e.resetAt ≤ now then (true, ⟨1, now + 1000⟩)
      else if limit ≤ e.count then (false, e)
      else (true, ⟨e.count + 1, e.resetAt⟩)

/-- Per-socket, per-event rate-limiter table (`rateLimiters` in
socket-server.ts). -/
abbrev RateLimiters : Type := List (String × List (String × RateEntry))

/-- `checkRateLimit(socketId, event)` from socket-server.ts, with
`Date.now()` passed in as `now`.  Returns the boolean verdict and the
updated table. -/
def checkRateLimit (rls : RateLimiters) (socketId event : String)
    (now : Nat) : Bool × RateLimiters :=
  match rateLimitFor event with
  | none => (true, rls)
  | some limit =>
      let socketLimits := (mapGet rls socketId).getD []
      let r := rateStep limit (mapGet socketLimits event) now
      (r.1, mapSet rls socketId (mapSet socketLimits event r.2))

/-- Fold `rateStep` over a list of call times, collecting the verdicts. -/
def rateRun (limit : Nat) (entry : RateEntry) (times : List Nat) :
    List Bool × RateEntry :=
  match times with
  | [] => ([], entry)
  | t :: ts =>
      let r := rateStep limit (some entry) t
      let rest := rateRun limit r.2 ts
      (r.1 :: rest.1, rest.2)

/-! ## Server state, emissions and handlers -/

/-- Per-connection closure state of the `io.on("connection", ...)` handler:
the socket id, the mutable `currentRoom` variable and the mutable
`userInfo` record. -/
structure ConnState where
  socketId : String
  currentRoom : Option String
  userInfo : UserInfo
  deriving Repr, DecidableEq

/-- Where an event is emitted: `socket.emit` (sender only),
`socket.to(roomId).emit` (other members) or `io.to(roomId).emit`
(all members). -/
inductive EmitTarget
  | sender
  | othersIn (roomId : String)
  | allIn (roomId : String)
  deriving Repr, DecidableEq

/-- The server-to-client events the claims are about.  Fields read through
unchecked casts that may be `undefined` are `Option`-valued. -/
inductive ServerEvent
  | roomError (message : String)
  | roomDataEv (code : Option String) (language : Option String)
      (theme : Option String) (users : List UserInfo)
      (messages : List ChatMessage)
  | fileRoomData (file : Option FileData) (userCount : Nat)
      (users : List UserInfo)
  | callRoomData (users : List UserInfo) (messages : List ChatMessage)
  | userJoined (user : UserInfo) (users : List UserInfo)
      (userCount : Option Nat)
  | userJoinedCall (user : UserInfo) (users : List UserInfo)
  | codeUpdate (code : String)
  | fileUpdate (file : FileData)
  | newMessage (msg : ChatMessage)
  | userLeft (userId : String) (users : List UserInfo)
      (userCount : Option Nat)
  | userLeftCall (userId : String) (users : List UserInfo)
  deriving Repr, DecidableEq

/-- Whole-server mutable state: the `rooms` map (keyed by roomId alone)
and the `rateLimiters` table. -/
structure ServerState where
  rooms : List (String × RoomData)
  rateLimiters : RateLimiters
  deriving Repr, DecidableEq

/-- The server state at process start: no rooms, no limiter entries. -/
def emptyServer : ServerState := ⟨[], []⟩

/-- Result of running one handler: the new server state, the new
per-connection state, the emissions produced, and the roomIds for which a
5-minute eviction timer was armed. -/
structure HandlerResult where
  state : ServerState
  conn : ConnState
  emits : List (EmitTarget × ServerEvent)
  timersArmed : List String
  deriving Repr, DecidableEq

/-- Shared shape of the three join handlers: set `currentRoom`, create the
room with `freshPayload` if the roomId is unknown, otherwise reject when
the existing room (whatever its kind) is full, else add the user. -/
def joinCommon (s : ServerState) (c : ConnState) (roomId : String)
    (now : Nat) (freshPayload : RoomPayload)
    (dataEv : RoomData → ServerEvent)
    (joinedEv : RoomData → ServerEvent) : HandlerResult :=
  match mapGet s.rooms roomId with
  | none =>
      let newRoom : RoomData :=
        ⟨freshPayload, [(c.socketId, c.userInfo)], [], now⟩
      { state := { s with rooms := mapSet s.rooms roomId newRoom }
        conn := { c with currentRoom := some roomId }
        emits := [(.sender, dataEv newRoom), (.othersIn roomId, joinedEv newRoom)]
        timersArmed := [] }
  | some room =>
      if MAX_ROOM_SIZE ≤ room.users.length then
        { state := s
          conn := { c with currentRoom := none }
          emits := [(.sender, .roomError "Room is full (max 50 users)")]
          timersArmed := [] }
      else
        let room' : RoomData :=
          { room with users := mapSet room.users c.socketId c.userInfo }
        { state := { s with rooms := mapSet s.rooms roomId room' }
          conn := { c with currentRoom := some roomId }
          emits := [(.sender, dataEv room'), (.othersIn roomId, joinedEv room')]
          timersArmed := [] }

/-- The `join-room` handler (code rooms). -/
def joinRoom (s : ServerState) (c : ConnState) (roomId : String)
    (now : Nat) : HandlerResult :=
  joinCommon s c roomId now
    (.codeP "// Start coding here...\n" "javascript" "vs-dark")
    (fun rm => .roomDataEv (codeOf rm.payload) (languageOf rm.payload)
      (themeOf rm.payload) (rm.users.map Prod.snd)
      (rm.messages.drop (rm.messages.length - 50)))
    (fun rm => .userJoined c.userInfo (rm.users.map Prod.snd) none)

/-- The `join-file-room` handler. -/
def joinFileRoom (s : ServerState) (c : ConnState) (roomId : String)
    (now : Nat) : HandlerResult :=
  joinCommon s c roomId now (.fileP none)
    (fun rm => .fileRoomData (fileOf rm.payload) rm.users.length
      (rm.users.map Prod.snd))
    (fun rm => .userJoined c.userInfo (rm.users.map Prod.snd)
      (some rm.users.length))

/-- The `join-call-room` handler. -/
def joinCallRoom (s : ServerState) (c : ConnState) (roomId : String)
    (callType : CallType) (now : Nat) : HandlerResult :=
  joinCommon s c roomId now (.callP callType)
    (fun rm => .callRoomData (rm.users.map Prod.snd)
      (rm.messages.drop (rm.messages.length - 50)))
    (fun rm => .userJoinedCall c.userInfo (rm.users.map Prod.snd))

/-- The `code-change` handler: rate-check, reject oversized text with a
`room-error`, otherwise store and broadcast when the room is a code room. -/
def codeChange (s : ServerState) (c : ConnState) (roomId code : String)
    (now : Nat) : HandlerResult :=
  let r := checkRateLimit s.rateLimiters c.socketId "code-change" now
  let s₁ : ServerState := { s with rateLimiters := r.2 }
  if r.1 = false then
    { state := s₁, conn := c, emits := [], timersArmed := [] }
  else if MAX_CODE_SIZE < code.length then
    { state := s₁, conn := c
      emits := [(.sender, .roomError "Code exceeds 500KB limit")]
      timersArmed := [] }
  else
    match mapGet s₁.rooms roomId with
    | some room =>
        match room.payload with
        | .codeP _ lang theme =>
            let room' : RoomData := { room with payload := .codeP code lang theme }
            { state := { s₁ with rooms := mapSet s₁.rooms roomId room' }
              conn := c
              emits := [(.othersIn roomId, .codeUpdate code)]
              timersArmed := [] }
        | _ => { state := s₁, conn := c, emits := [], timersArmed := [] }
    | none => { state := s₁, conn := c, emits := [], timersArmed := [] }

/-- The `file-upload` handler: on a file room, store and broadcast only if
`file.size <= MAX_FILE_SIZE`; an oversized upload falls through with no
effect and no emission (there is no `else` branch in the source). -/
def fileUpload (s : ServerState) (c : ConnState) (roomId : String)
    (file : FileData) : HandlerResult :=
  match mapGet s.rooms roomId with
  | some room =>
      match room.payload with
      | .fileP _ =>
          if file.size ≤ MAX_FILE_SIZE then
            let room' : RoomData := { room with payload := .fileP (some file) }
            { state := { s with rooms := mapSet s.rooms roomId room' }
              conn := c
              emits := [(.othersIn roomId, .fileUpdate file)]
              timersArmed := [] }
          else { state := s, conn := c, emits := [], timersArmed := [] }
      | _ => { state := s, conn := c, emits := [], timersArmed := [] }
  | none => { state := s, conn := c, emits := [], timersArmed := [] }

/-- The `ChatMessage` record built by the `chat-message` handler: id
`Date.now()-socket.id`, the sender's profile, the text truncated to 500
characters (`message.slice(0, 500)`). -/
def chatMessageOf (c : ConnState) (message : String) (now : Nat) :
    ChatMessage :=
  ⟨toString now ++ "-" ++ c.socketId, c.socketId,
    c.userInfo.name, c.userInfo.color, message.take 500, now⟩

/-- Appending to the bounded chat history: push, then keep only the last
100 messages. -/
def pushChat (history : List ChatMessage) (msg : ChatMessage) :
    List ChatMessage :=
  let pushed := history ++ [msg]
  if 100 < pushed.length then pushed.drop (pushed.length - 100) else pushed

/-- The `chat-message` handler: rate-check, drop when the room is unknown
or the trimmed text is empty, otherwise append the message (text truncated
to 500 characters, history trimmed to the last 100) and broadcast to all
members including the sender. -/
def chatMessage (s : ServerState) (c : ConnState) (roomId message : String)
    (now : Nat) : HandlerResult :=
  let r := checkRateLimit s.rateLimiters c.socketId "chat-message" now
  let s₁ : ServerState := { s with rateLimiters := r.2 }
  if r.1 = false then
    { state := s₁, conn := c, emits := [], timersArmed := [] }
  else
    match mapGet s₁.rooms roomId with
    | some room =>
        if message.trim = "" then
          { state := s₁, conn := c, emits := [], timersArmed := [] }
        else
          let msg := chatMessageOf c message now
          let room' : RoomData :=
            { room with messages := pushChat room.messages msg }
          { state := { s₁ with rooms := mapSet s₁.rooms roomId room' }
            conn := c
            emits := [(.allIn roomId, .newMessage msg)]
            timersArmed := [] }
    | none => { state := s₁, conn := c, emits := [], timersArmed := [] }

/-- The `leave-call-room` handler: only call rooms are affected; the user
is removed and `user-left-call` is broadcast (`currentRoom` is not
cleared). -/
def leaveCallRoom (s : ServerState) (c : ConnState) (roomId : String) :
    HandlerResult :=
  match mapGet s.rooms roomId with
  | some room =>
      match room.payload with
      | .callP _ =>
          let room' : RoomData :=
            { room with users := mapDelete room.users c.socketId }
          { state := { s with rooms := mapSet s.rooms roomId room' }
            conn := c
            emits := [(.othersIn roomId,
              .userLeftCall c.socketId (room'.users.map Prod.snd))]
            timersArmed := [] }
      | _ => { state := s, conn := c, emits := [], timersArmed := [] }
  | none => { state := s, conn := c, emits := [], timersArmed := [] }

/-- The kind-dependent departure broadcast of the `disconnect` handler. -/
def userLeftEventFor (payload : RoomPayload) (socketId : String)
    (usersAfter : List (String × UserInfo)) : ServerEvent :=
  match payload with
  | .codeP _ _ _ => .userLeft socketId (usersAfter.map Prod.snd) none
  | .fileP _ =>
      .userLeft socketId (usersAfter.map Prod.snd) (some usersAfter.length)
  | .callP _ => .userLeftCall socketId (usersAfter.map Prod.snd)

/-- The `disconnect` handler: purge the limiter state, then — only for the
single room recorded in `currentRoom` — remove the user, broadcast the
kind-appropriate `user-left` variant and arm a 5-minute eviction timer if
the room became empty. -/
def disconnect (s : ServerState) (c : ConnState) : HandlerResult :=
  let s₁ : ServerState :=
    { s with rateLimiters := mapDelete s.rateLimiters c.socketId }
  match c.currentRoom with
  | some roomId =>
      match mapGet s₁.rooms roomId with
      | some room =>
          let users' := mapDelete room.users c.socketId
          let room' : RoomData := { room with users := users' }
          { state := { s₁ with rooms := mapSet s₁.rooms roomId room' }
            conn := c
            emits := [(.othersIn roomId,
              userLeftEventFor room.payload c.socketId users')]
            timersArmed := if users'.length = 0 then [roomId] else [] }
      | none =>
          { state := s₁, conn := c, emits := [], timersArmed := [] }
  | none => { state := s₁, conn := c, emits := [], timersArmed := [] }

/-! ## Client mesh coordinator (CallRoom.tsx) -/

/-- `CONNECTION_TIMEOUT = 30000` (30s). -/
def CONNECTION_TIMEOUT : Nat := 30000

/-- `MAX_MESH_PEERS = 6`. -/
def MAX_MESH_PEERS : Nat := 6

/-- The `connectionStatus` field of a `PeerState`. -/
inductive ConnStatus
  | connecting
  | connected
  | failed
  deriving Repr, DecidableEq

/-- One `PeerState` of CallRoom.tsx.  The wrapped `RTCPeerConnection` is
modelled by three observables: whether it is still open (`pcOpen`),
whether a remote description has been set (`remoteDescSet`), and the
ordered list of ICE candidates applied to it via `addIceCandidate`
(`appliedCandidates`, candidates as opaque numbers). -/
structure PeerLink where
  peerId : String
  userName : String
  userColor : String
  pcOpen : Bool
  remoteDescSet : Bool
  appliedCandidates : List Nat
  connectionStatus : ConnStatus
  pendingCandidates : List Nat
  timeoutArmed : Bool
  deriving Repr, DecidableEq

/-- Mesh coordinator state: the `peersRef` map, the
`disconnectGraceTimers` keys, and the `connectionError` React state. -/
structure MeshState where
  peers : List (String × PeerLink)
  graceTimers : List String
  connectionError : Option String
  deriving Repr, DecidableEq

/-- The mesh state on mount: no links, no timers, no error. -/
def emptyMesh : MeshState := ⟨[], [], none⟩

/-- A freshly constructed `PeerState`: open connection, no remote
description, `connecting`, empty candidate queue, 30s timeout armed. -/
def freshLink (peerId userName userColor : String) : PeerLink :=
  ⟨peerId, userName, userColor, true, false, [], .connecting, [], true⟩

/-- `createPeerConnectionForPeer` from CallRoom.tsx: any existing link for
the id has its timer cleared and its connection closed, then — after
merely logging a warning when `peersRef.current.size >= MAX_MESH_PEERS`,
without returning — a fresh link is created and registered.  The returned
boolean records whether the mesh-limit warning was logged. -/
def createPeerConnectionForPeer (st : MeshState) (peerId userName userColor : String) :
    MeshState × Bool :=
  let warned := MAX_MESH_PEERS ≤ st.peers.length
  let ps := freshLink peerId userName userColor
  ({ st with peers := mapSet st.peers peerId ps }, warned)

/-- `removePeer` from CallRoom.tsx: clear the link's timer, close its
connection, delete it from the map, and cancel any grace timer for it. -/
def removePeer (st : MeshState) (peerId : String) : MeshState :=
  { st with peers := mapDelete st.peers peerId,
            graceTimers := st.graceTimers.filter (fun g => g ≠ peerId) }

/-- The 30-second connection-timeout callback armed in
`createPeerConnectionForPeer`: if the link is still not `connected`, set
its status to `failed` and re-sync the UI state — nothing else. -/
def connectionTimeoutFires (st : MeshState) (peerId : String) : MeshState :=
  match mapGet st.peers peerId with
  | none => st
  | some p =>
      if p.connectionStatus ≠ .connected then
        { st with peers :=
            mapSet st.peers peerId { p with connectionStatus := .failed } }
      else st

/-- The `webrtc-ice-candidate` handler: ignore candidates from unknown
peers; apply immediately when a remote description is set; otherwise
append to `pendingCandidates`. -/
def handleIceCandidate (st : MeshState) (fromId : String) (c : Nat) :
    MeshState :=
  match mapGet st.peers fromId with
  | none => st
  | some peer =>
      if peer.remoteDescSet then
        let peer' := { peer with appliedCandidates := peer.appliedCandidates ++ [c] }
        { st with peers := mapSet st.peers fromId peer' }
      else
        let peer' := { peer with pendingCandidates := peer.pendingCandidates ++ [c] }
        { st with peers := mapSet st.peers fromId peer' }

/-- The `webrtc-offer` handler: re-create the peer link (replacing any
existing one), set the remote description on the fresh connection, flush
its (fresh, hence empty at this point) pending queue in order, and clear
the queue. -/
def handleOffer (st : MeshState) (fromId fromName : String) : MeshState :=
  let st₁ := (createPeerConnectionForPeer st fromId fromName "").1
  match mapGet st₁.peers fromId with
  | none => st₁
  | some peer =>
      let peer' := { peer with
        remoteDescSet := true
        appliedCandidates := peer.appliedCandidates ++ peer.pendingCandidates
        pendingCandidates := ([] : List Nat) }
      { st₁ with peers := mapSet st₁.peers fromId peer' }

/-- The `webrtc-answer` handler: on an existing link, set the remote
description, flush the pending queue in arrival order, and clear it. -/
def handleAnswer (st : MeshState) (fromId : String) : MeshState :=
  match mapGet st.peers fromId with
  | none => st
  | some peer =>
      let peer' := { peer with
        remoteDescSet := true
        appliedCandidates := peer.appliedCandidates ++ peer.pendingCandidates
        pendingCandidates := ([] : List Nat) }
      { st with peers := mapSet st.peers fromId peer' }

/-- Signaling events a client receives for its mesh. -/
inductive SignalEvent
  | recvCandidate (fromId : String) (c : Nat)
  | recvOffer (fromId : String) (fromName : String)
  | recvAnswer (fromId : String)
  deriving Repr, DecidableEq

/-- Process a sequence of signaling events. -/
def runSignals (st : MeshState) (evs : List SignalEvent) : MeshState :=
  match evs with
  | [] => st
  | ev :: rest =>
      let st' := match ev with
        | .recvCandidate fromId c => handleIceCandidate st fromId c
        | .recvOffer fromId fromName => handleOffer st fromId fromName
        | .recvAnswer fromId => handleAnswer st fromId
      runSignals st' rest

/-! ## Deterministic offerer election -/

/-- JavaScript `<` on strings: lexicographic comparison of code points. -/
def jsCharListLt : List Char → List Char → Bool
  | [], [] => false
  | [], _ :: _ => true
  | _ :: _, [] => false
  | c :: cs, d :: ds =>
      if c.toNat < d.toNat then true
      else if d.toNat < c.toNat then false
      else jsCharListLt cs ds

/-- JavaScript `a < b` for the participant-id strings. -/
def jsStringLt (a b : String) : Bool := jsCharListLt a.data b.data

/-- The offer decision in the `call-room-data` handler (the joining
client, for each other member of the snapshot):
`data.userInfo.id < targetUser.id && localStreamRef.current`. -/
def offersOnSnapshot (myId targetId : String) (hasLocalStream : Bool) : Bool :=
  jsStringLt myId targetId && hasLocalStream

/-- The offer decision in the `user-joined-call` handler (an existing
member, toward the newcomer):
`currentInfo.id < data.user.id && localStreamRef.current`. -/
def offersOnJoin (myId newUserId : String) (hasLocalStream : Bool) : Bool :=
  jsStringLt myId newUserId && hasLocalStream

theorem jsCharListLt_asymm (xs ys : List Char)
    (h : jsCharListLt xs ys = true) : jsCharListLt ys xs = false := by
  induction xs generalizing ys with
  | nil =>
      cases ys with
      | nil => simp [jsCharListLt] at h
      | cons d ds => simp [jsCharListLt]
  | cons c cs ih =>
      cases ys with
      | nil => simp [jsCharListLt] at h
      | cons d ds =>
          by_cases h₁ : c.toNat < d.toNat
          · have h₂ : ¬(d.toNat < c.toNat) := by omega
            simp [jsCharListLt, h₁, h₂]
          · by_cases h₂ : d.toNat < c.toNat
            · simp [jsCharListLt, h₁, h₂] at h
            · simp only [jsCharListLt, if_neg h₁, if_neg h₂] at h
              simp [jsCharListLt, h₁, h₂, ih ds h]

theorem jsCharListLt_total (xs ys : List Char)
    (hxy : jsCharListLt xs ys = false) (hyx : jsCharListLt ys xs = false) :
    xs = ys := by
  induction xs generalizing ys with
  | nil =>
      cases ys with
      | nil => rfl
      | cons d ds => simp [jsCharListLt] at hxy
  | cons c cs ih =>
      cases ys with
      | nil => simp [jsCharListLt] at hyx
      | cons d ds =>
          by_cases h₁ : c.toNat < d.toNat
          · simp [jsCharListLt, h₁] at hxy
          · by_cases h₂ : d.toNat < c.toNat
            · simp [jsCharListLt, h₁, h₂] at hyx
            · have hnat : c.toNat = d.toNat := by omega
              have hcd : c = d := by
                calc c = Char.ofNat c.toNat := (Char.ofNat_toNat c).symm
                  _ = Char.ofNat d.toNat := by rw [hnat]
                  _ = d := Char.ofNat_toNat d
              subst hcd
              simp only [jsCharListLt, if_neg h₁] at hxy hyx
              rw [ih ds hxy hyx]

theorem jsStringLt_asymm (a b : String) (h : jsStringLt a b = true) :
    jsStringLt b a = false := jsCharListLt_asymm a.data b.data h

theorem jsStringLt_total (a b : String) (hab : jsStringLt a b = false)
    (hba : jsStringLt b a = false) : a = b := by
  have h := jsCharListLt_total a.data b.data hab hba
  exact congrArg String.mk h

/-! ## Further map lemmas -/

theorem mapSet_self {α : Type} (m : List (String × α)) (k : String) (v : α)
    (h : mapGet m k = some v) : mapSet m k v = m := by
  induction m with
  | nil => simp [mapGet] at h
  | cons hd tl ih =>
      obtain ⟨k₀, v₀⟩ := hd
      by_cases hk : k₀ = k
      · subst hk
        simp [mapGet] at h
        simp [mapSet, h]
      · simp [mapGet, hk] at h
        simp [mapSet, hk, ih h]

theorem all_mapGet {α : Type} (m : List (String × α)) (k : String) (v : α)
    (p : String × α → Bool) (hm : m.all p = true) (h : mapGet m k = some v) :
    p (k, v) = true := by
  induction m with
  | nil => simp [mapGet] at h
  | cons hd tl ih =>
      obtain ⟨k₀, v₀⟩ := hd
      simp only [List.all_cons, Bool.and_eq_true] at hm
      by_cases hk : k₀ = k
      · subst hk
        simp [mapGet] at h
        subst h
        exact hm.1
      · simp [mapGet, hk] at h
        exact ih hm.2 h

/-! ## Rate-limiter window lemmas -/

theorem rateRun_window (L r : Nat) (ts : List Nat) :
    ∀ c, (∀ t ∈ ts, t < r) →
      (rateRun L ⟨c, r⟩ ts).1
          = (List.range ts.length).map (fun n => decide (c + n < L)) ∧
        (rateRun L ⟨c, r⟩ ts).2.resetAt = r := by
  induction ts with
  | nil => intro c _; simp [rateRun]
  | cons t ts ih =>
      intro c h
      have ht : t < r := h t (by simp)
      have hts : ∀ t' ∈ ts, t' < r := fun t' ht' => h t' (by simp [ht'])
      have hnotle : ¬(r ≤ t) := Nat.not_le.mpr ht
      by_cases hc : L ≤ c
      · have hstep : rateStep L (some ⟨c, r⟩) t = (false, ⟨c, r⟩) := by
          simp [rateStep, hnotle, hc]
        have hrec := ih c hts
        constructor
        · simp only [rateRun, hstep, hrec.1, List.length_cons,
            List.range_succ_eq_map, List.map_cons, List.map_map]
          congr 1
          · have : ¬(c < L) := Nat.not_lt.mpr hc
            simp [this]
          · apply List.map_congr_left
            intro a _
            have h₁ : ¬(c + a < L) := by omega
            have h₂ : ¬(c + Nat.succ a < L) := by omega
            simp [Function.comp, h₁, h₂]
        · simp only [rateRun, hstep]
          exact (ih c hts).2
      · have hlt : c < L := Nat.not_le.mp hc
        have hstep : rateStep L (some ⟨c, r⟩) t = (true, ⟨c + 1, r⟩) := by
          simp [rateStep, hnotle, hc]
        have hrec := ih (c + 1) hts
        constructor
        · simp only [rateRun, hstep, hrec.1, List.length_cons,
            List.range_succ_eq_map, List.map_cons, List.map_map]
          congr 1
          · simp [hlt]
          · apply List.map_congr_left
            intro a _
            have : c + 1 + a = c + Nat.succ a := by omega
            simp [Function.comp, this]
        · simp only [rateRun, hstep]
          exact (ih (c + 1) hts).2

/-! ## Membership-affecting command sequences -/

/-- A membership-affecting client command together with the
per-connection state it executes under (an arbitrary one: the invariant
holds whatever the connections do). -/
inductive RoomOp
  | opJoinCode (c : ConnState) (roomId : String) (now : Nat)
  | opJoinFile (c : ConnState) (roomId : String) (now : Nat)
  | opJoinCall (c : ConnState) (roomId : String) (callType : CallType) (now : Nat)
  | opLeaveCall (c : ConnState) (roomId : String)
  | opDisconnect (c : ConnState)

/-- Apply one command's effect on the room table. -/
def applyOp (s : ServerState) (op : RoomOp) : ServerState :=
  match op with
  | .opJoinCode c roomId now => (joinRoom s c roomId now).state
  | .opJoinFile c roomId now => (joinFileRoom s c roomId now).state
  | .opJoinCall c roomId ct now => (joinCallRoom s c roomId ct now).state
  | .opLeaveCall c roomId => (leaveCallRoom s c roomId).state
  | .opDisconnect c => (disconnect s c).state

/-- Every room's membership is within the cap. -/
def roomsBounded (s : ServerState) : Bool :=
  s.rooms.all (fun e => e.2.users.length ≤ MAX_ROOM_SIZE)

theorem roomsBounded_joinCommon (s : ServerState) (c : ConnState)
    (roomId : String) (now : Nat) (pl : RoomPayload)
    (dataEv joinedEv : RoomData → ServerEvent)
    (hs : roomsBounded s = true) :
    roomsBounded (joinCommon s c roomId now pl dataEv joinedEv).state = true := by
  cases hm : mapGet s.rooms roomId with
  | none =>
      simp only [joinCommon, hm, roomsBounded]
      apply all_mapSet _ _ _ _ hs
      simp [MAX_ROOM_SIZE]
  | some room =>
      by_cases hfull : MAX_ROOM_SIZE ≤ room.users.length
      · simp only [joinCommon, hm, if_pos hfull]
        exact hs
      · simp only [joinCommon, hm, if_neg hfull, roomsBounded]
        apply all_mapSet _ _ _ _ hs
        have h₁ := length_mapSet_le room.users c.socketId c.userInfo
        have h₂ : room.users.length < MAX_ROOM_SIZE := Nat.not_le.mp hfull
        simp only [decide_eq_true_eq]
        omega

theorem roomsBounded_applyOp (s : ServerState) (op : RoomOp)
    (hs : roomsBounded s = true) : roomsBounded (applyOp s op) = true := by
  cases op with
  | opJoinCode c roomId now => exact roomsBounded_joinCommon _ _ _ _ _ _ _ hs
  | opJoinFile c roomId now => exact roomsBounded_joinCommon _ _ _ _ _ _ _ hs
  | opJoinCall c roomId ct now => exact roomsBounded_joinCommon _ _ _ _ _ _ _ hs
  | opLeaveCall c roomId =>
      cases hm : mapGet s.rooms roomId with
      | none => simpa [applyOp, leaveCallRoom, hm] using hs
      | some room =>
          cases hpl : room.payload with
          | callP ct =>
              simp only [applyOp, leaveCallRoom, hm, hpl, roomsBounded]
              apply all_mapSet _ _ _ _ hs
              have h₁ := length_mapDelete_le room.users c.socketId
              have h₂ : room.users.length ≤ MAX_ROOM_SIZE := by
                have := all_mapGet s.rooms roomId room _ hs hm
                simpa using this
              simp only [decide_eq_true_eq]
              omega
          | codeP cd l t => simpa [applyOp, leaveCallRoom, hm, hpl] using hs
          | fileP f => simpa [applyOp, leaveCallRoom, hm, hpl] using hs
  | opDisconnect c =>
      cases hcr : c.currentRoom with
      | none => simpa [applyOp, disconnect, hcr, roomsBounded] using hs
      | some roomId =>
          cases hm : mapGet s.rooms roomId with
          | none => simpa [applyOp, disconnect, hcr, hm, roomsBounded] using hs
          | some room =>
              simp only [applyOp, disconnect, hcr, hm, roomsBounded]
              apply all_mapSet _ _ _ _ hs
              have h₁ := length_mapDelete_le room.users c.socketId
              have h₂ : room.users.length ≤ MAX_ROOM_SIZE := by
                have := all_mapGet s.rooms roomId room _ hs hm
                simpa using this
              simp only [decide_eq_true_eq]
              omega

theorem roomsBounded_foldl (ops : List RoomOp) :
    ∀ s, roomsBounded s = true →
      roomsBounded (ops.foldl applyOp s) = true := by
  induction ops with
  | nil => intro s hs; simpa using hs
  | cons op ops ih =>
      intro s hs
      simpa [List.foldl_cons] using ih _ (roomsBounded_applyOp s op hs)

/-! ## ICE-candidate buffering lemmas -/

theorem runSignals_append (st : MeshState) (evs₁ evs₂ : List SignalEvent) :
    runSignals st (evs₁ ++ evs₂) = runSignals (runSignals st evs₁) evs₂ := by
  induction evs₁ generalizing st with
  | nil => simp [runSignals]
  | cons ev rest ih =>
      cases ev with
      | recvCandidate fromId c => simp [runSignals, ih]
      | recvOffer fromId fromName => simp [runSignals, ih]
      | recvAnswer fromId => simp [runSignals, ih]

theorem runSignals_buffer (cs : List Nat) (p : String) :
    ∀ (st : MeshState) (link : PeerLink),
      mapGet st.peers p = some link → link.remoteDescSet = false →
      runSignals st (cs.map (SignalEvent.recvCandidate p))
        = { st with peers := mapSet st.peers p { link with pendingCandidates := link.pendingCandidates ++ cs } } := by
  induction cs with
  | nil =>
      intro st link hget hdesc
      simp only [List.map_nil, runSignals, List.append_nil]
      rw [mapSet_self st.peers p link hget]
  | cons c cs ih =>
      intro st link hget hdesc
      have h1 : runSignals st ((c :: cs).map (SignalEvent.recvCandidate p))
          = runSignals (handleIceCandidate st p c) (cs.map (SignalEvent.recvCandidate p)) := by
        simp [runSignals]
      have h2 : handleIceCandidate st p c
          = { st with peers := mapSet st.peers p { link with pendingCandidates := link.pendingCandidates ++ [c] } } := by
        simp [handleIceCandidate, hget, hdesc]
      rw [h1, h2,
        ih { st with peers := mapSet st.peers p { link with pendingCandidates := link.pendingCandidates ++ [c] } }
          { link with pendingCandidates := link.pendingCandidates ++ [c] }
          (mapGet_mapSet_self st.peers p _) hdesc]
      simp [mapSet_mapSet, List.append_assoc]

theorem runSignals_applyDirect (ds : List Nat) (p : String) :
    ∀ (st : MeshState) (link : PeerLink),
      mapGet st.peers p = some link → link.remoteDescSet = true →
      runSignals st (ds.map (SignalEvent.recvCandidate p))
        = { st with peers := mapSet st.peers p { link with appliedCandidates := link.appliedCandidates ++ ds } } := by
  induction ds with
  | nil =>
      intro st link hget hdesc
      simp only [List.map_nil, runSignals, List.append_nil]
      rw [mapSet_self st.peers p link hget]
  | cons d ds ih =>
      intro st link hget hdesc
      have h1 : runSignals st ((d :: ds).map (SignalEvent.recvCandidate p))
          = runSignals (handleIceCandidate st p d) (ds.map (SignalEvent.recvCandidate p)) := by
        simp [runSignals]
      have h2 : handleIceCandidate st p d
          = { st with peers := mapSet st.peers p { link with appliedCandidates := link.appliedCandidates ++ [d] } } := by
        simp [handleIceCandidate, hget, hdesc]
      rw [h1, h2,
        ih { st with peers := mapSet st.peers p { link with appliedCandidates := link.appliedCandidates ++ [d] } }
          { link with appliedCandidates := link.appliedCandidates ++ [d] }
          (mapGet_mapSet_self st.peers p _) hdesc]
      simp [mapSet_mapSet, List.append_assoc]

/-! ## Concrete fixtures -/

/-- A first connected user. -/
def userA : UserInfo := ⟨"A", "alice", "#f87171"⟩

/-- A second connected user. -/
def userB : UserInfo := ⟨"B", "bob", "#fb923c"⟩

/-- Connection state of user A before joining anything. -/
def connA : ConnState := ⟨"A", none, userA⟩

/-- Connection state of user B before joining anything. -/
def connB : ConnState := ⟨"B", none, userB⟩

/-- Fifty distinct members. -/
def fullUsers : List (String × UserInfo) :=
  (List.range MAX_ROOM_SIZE).map (fun n => (toString n, ⟨toString n, "user", "#ffffff"⟩))

/-- A code room at the membership cap. -/
def fullRoom : RoomData := ⟨.codeP "x" "javascript" "vs-dark", fullUsers, [], 0⟩

/-- A server holding one full room under id `full`. -/
def fullServer : ServerState := ⟨[("full", fullRoom)], []⟩

theorem fullRoom_atCap : MAX_ROOM_SIZE ≤ fullRoom.users.length := by
  simp [fullRoom, fullUsers]

/-- A file blob one byte over the 4MB cap. -/
def bigFile : FileData :=
  ⟨"big.bin", MAX_FILE_SIZE + 1, "application/octet-stream", "", 0⟩

/-- A file room with a single member and no file yet. -/
def fileRoomA : RoomData := ⟨.fileP none, [("A", userA)], [], 0⟩

/-- A server holding only `fileRoomA` under id `f`. -/
def fileServer : ServerState := ⟨[("f", fileRoomA)], []⟩

/-- A call room with a single member. -/
def callRoomA : RoomData := ⟨.callP .video, [("A", userA)], [], 0⟩

/-- A server holding only `callRoomA` under id `c`. -/
def callServer : ServerState := ⟨[("c", callRoomA)], []⟩

/-- A code text one character over the 500KB cap. -/
def bigCode : String := String.mk (List.replicate (MAX_CODE_SIZE + 1) 'a')

theorem bigCode_overCap : MAX_CODE_SIZE < bigCode.length := by
  simp [bigCode, String.length]

/-- A mesh that already holds six peer links. -/
def meshWithSix : MeshState :=
  ["p1", "p2", "p3", "p4", "p5", "p6"].foldl
    (fun st pid => (createPeerConnectionForPeer st pid "peer" "#ffffff").1)
    emptyMesh

/-! ## C1: room identity across kinds -/

/-- C1 counterexample.  The claim says rooms of different kinds sharing a
roomId are fully independent.  In the code the `rooms` map is keyed by
roomId alone: after user A creates code room `shared`, user B's
`join-file-room` for the same id lands in that very code room — the
room is still code-kind yet now lists both A and B, and B is sent a
`file-room-data` snapshot carved out of the code room's membership. -/
theorem C1_crossKind_leak_counterexample :
    ((mapGet (joinFileRoom (joinRoom emptyServer connA "shared" 0).state
        connB "shared" 1).state.rooms "shared").map
      (fun rm => (isCodePayload rm.payload, rm.users.map Prod.fst)))
      = some (true, ["A", "B"]) ∧
    (joinFileRoom (joinRoom emptyServer connA "shared" 0).state
        connB "shared" 1).emits
      = [(.sender, .fileRoomData none 2 [userA, userB]),
         (.othersIn "shared", .userJoined userB [userA, userB] (some 2))] := by
  decide

/-- C1 amended: the server keys rooms by roomId alone, so a join of any
kind on an existing roomId joins that room whatever its kind (sharing
its membership), while the kind-specific payload writes (`code-change`,
`file-upload`) are guarded by the stored kind and leave rooms of other
kinds untouched. -/
theorem C1_sharedKeyspace_amended (s : ServerState) (c : ConnState)
    (roomId : String) (room : RoomData)
    (hroom : mapGet s.rooms roomId = some room)
    (hnotfull : room.users.length < MAX_ROOM_SIZE)
    (now : Nat) (code : String) (hcode : code.length ≤ MAX_CODE_SIZE)
    (f : FileData) :
    (joinFileRoom s c roomId now).state.rooms
      = mapSet s.rooms roomId { room with users := mapSet room.users c.socketId c.userInfo } ∧
    (isCodePayload room.payload = false →
      (codeChange s c roomId code now).state.rooms = s.rooms ∧
      (codeChange s c roomId code now).emits = []) ∧
    (isFilePayload room.payload = false →
      (fileUpload s c roomId f).state = s ∧
      (fileUpload s c roomId f).emits = []) := by
  refine ⟨?_, ?_, ?_⟩
  · simp [joinFileRoom, joinCommon, hroom, Nat.not_le.mpr hnotfull]
  · intro hnc
    by_cases hrl : (checkRateLimit s.rateLimiters c.socketId "code-change" now).1 = false
    · constructor <;> simp [codeChange, hrl]
    · cases hpl : room.payload with
      | codeP a b d => rw [hpl] at hnc; simp [isCodePayload] at hnc
      | fileP f₀ =>
          constructor <;> simp [codeChange, hrl, Nat.not_lt.mpr hcode, hroom, hpl]
      | callP ct =>
          constructor <;> simp [codeChange, hrl, Nat.not_lt.mpr hcode, hroom, hpl]
  · intro hnf
    cases hpl : room.payload with
    | codeP a b d => constructor <;> simp [fileUpload, hroom, hpl]
    | fileP f₀ => rw [hpl] at hnf; simp [isFilePayload] at hnf
    | callP ct => constructor <;> simp [fileUpload, hroom, hpl]

/-- C1 witness: the amended statement at a concrete call room. -/
theorem C1_sharedKeyspace_witness :
    (joinFileRoom callServer connB "c" 5).state.rooms
      = mapSet callServer.rooms "c"
          { callRoomA with users := mapSet callRoomA.users connB.socketId connB.userInfo } ∧
    (isCodePayload callRoomA.payload = false →
      (codeChange callServer connB "c" "x" 5).state.rooms = callServer.rooms ∧
      (codeChange callServer connB "c" "x" 5).emits = []) ∧
    (isFilePayload callRoomA.payload = false →
      (fileUpload callServer connB "c" bigFile).state = callServer ∧
      (fileUpload callServer connB "c" bigFile).emits = []) :=
  C1_sharedKeyspace_amended callServer connB "c" callRoomA rfl (by decide) 5 "x"
    (by decide) bigFile

/-! ## C2: payload size caps -/

/-- C2 counterexample.  The claim says an oversized `file-upload` yields a
typed `room-error` to the originating client.  In the code the size check
has no else branch: the oversized upload is dropped with no emission at
all, so no `room-error` reaches the client. -/
theorem C2_fileUpload_silent_counterexample :
    (fileUpload fileServer connA "f" bigFile).emits = [] ∧
    (fileUpload fileServer connA "f" bigFile).state = fileServer := by
  decide

/-- C2 amended: an over-cap `code-change` (that passes the rate check)
leaves every room unchanged and sends the sender a `room-error`; an
over-cap `file-upload` also leaves all state unchanged but is silently
ignored — no `room-error` or any other event is emitted. -/
theorem C2_sizeCaps_amended (s : ServerState) (c : ConnState)
    (roomId code : String) (now : Nat) (f : FileData)
    (hallow : (checkRateLimit s.rateLimiters c.socketId "code-change" now).1 = true)
    (hcode : MAX_CODE_SIZE < code.length)
    (hf : MAX_FILE_SIZE < f.size) :
    (codeChange s c roomId code now).state.rooms = s.rooms ∧
    (codeChange s c roomId code now).emits
      = [(.sender, .roomError "Code exceeds 500KB limit")] ∧
    (fileUpload s c roomId f).state = s ∧
    (fileUpload s c roomId f).emits = [] := by
  refine ⟨?_, ?_, ?_, ?_⟩
  · simp [codeChange, hallow, hcode]
  · simp [codeChange, hallow, hcode]
  · cases hm : mapGet s.rooms roomId with
    | none => simp [fileUpload, hm]
    | some room =>
        cases hpl : room.payload with
        | codeP a b d => simp [fileUpload, hm, hpl]
        | fileP f₀ => simp [fileUpload, hm, hpl, Nat.not_le.mpr hf]
        | callP ct => simp [fileUpload, hm, hpl]
  · cases hm : mapGet s.rooms roomId with
    | none => simp [fileUpload, hm]
    | some room =>
        cases hpl : room.payload with
        | codeP a b d => simp [fileUpload, hm, hpl]
        | fileP f₀ => simp [fileUpload, hm, hpl, Nat.not_le.mpr hf]
        | callP ct => simp [fileUpload, hm, hpl]

/-- C2 witness: the amended statement at concrete oversized payloads. -/
theorem C2_sizeCaps_witness :
    (codeChange fileServer connA "f" bigCode 0).state.rooms = fileServer.rooms ∧
    (codeChange fileServer connA "f" bigCode 0).emits
      = [(.sender, .roomError "Code exceeds 500KB limit")] ∧
    (fileUpload fileServer connA "f" bigFile).state = fileServer ∧
    (fileUpload fileServer connA "f" bigFile).emits = [] :=
  C2_sizeCaps_amended fileServer connA "f" bigCode 0 bigFile rfl
    bigCode_overCap (by decide)

/-! ## C3: disconnect cleanup -/

/-- C3 counterexample.  The claim says a disconnect removes the
connection from every room it was a member of.  The handler only tracks
the single `currentRoom` (the last room joined): after A joins code room
`a` and then file room `b`, A's disconnect cleans up `b` only — room `a`
still lists A as a member and no timer is armed for it. -/
theorem C3_disconnect_counterexample :
    ((mapGet (disconnect
        (joinFileRoom (joinRoom emptyServer connA "a" 0).state
          (joinRoom emptyServer connA "a" 0).conn "b" 1).state
        (joinFileRoom (joinRoom emptyServer connA "a" 0).state
          (joinRoom emptyServer connA "a" 0).conn "b" 1).conn).state.rooms "a").map
      (fun rm => rm.users.map Prod.fst)) = some ["A"] ∧
    ((mapGet (disconnect
        (joinFileRoom (joinRoom emptyServer connA "a" 0).state
          (joinRoom emptyServer connA "a" 0).conn "b" 1).state
        (joinFileRoom (joinRoom emptyServer connA "a" 0).state
          (joinRoom emptyServer connA "a" 0).conn "b" 1).conn).state.rooms "b").map
      (fun rm => rm.users.map Prod.fst)) = some [] ∧
    (disconnect
        (joinFileRoom (joinRoom emptyServer connA "a" 0).state
          (joinRoom emptyServer connA "a" 0).conn "b" 1).state
        (joinFileRoom (joinRoom emptyServer connA "a" 0).state
          (joinRoom emptyServer connA "a" 0).conn "b" 1).conn).timersArmed = ["b"] := by
  decide

/-- C3 amended: a disconnect removes the connection only from the room
recorded in its `currentRoom` pointer (the most recently joined one),
broadcasts the kind-appropriate `user-left` variant there, and arms a
5-minute eviction timer exactly when that room became empty; every other
room — including earlier-joined ones the connection is still a member
of — is left untouched. -/
theorem C3_disconnect_amended (s : ServerState) (c : ConnState)
    (roomId : String) (room : RoomData)
    (hc : c.currentRoom = some roomId)
    (hroom : mapGet s.rooms roomId = some room) :
    (disconnect s c).state.rooms
      = mapSet s.rooms roomId { room with users := mapDelete room.users c.socketId } ∧
    (disconnect s c).state.rateLimiters = mapDelete s.rateLimiters c.socketId ∧
    (disconnect s c).emits
      = [(.othersIn roomId,
          userLeftEventFor room.payload c.socketId (mapDelete room.users c.socketId))] ∧
    (disconnect s c).timersArmed
      = (if (mapDelete room.users c.socketId).length = 0 then [roomId] else []) ∧
    (∀ r', r' ≠ roomId →
      mapGet (disconnect s c).state.rooms r' = mapGet s.rooms r') := by
  refine ⟨?_, ?_, ?_, ?_, ?_⟩
  · simp [disconnect, hc, hroom]
  · simp [disconnect, hc, hroom]
  · simp [disconnect, hc, hroom]
  · simp [disconnect, hc, hroom]
  · intro r' hne
    have h₁ : (disconnect s c).state.rooms
        = mapSet s.rooms roomId { room with users := mapDelete room.users c.socketId } := by
      simp [disconnect, hc, hroom]
    rw [h₁]
    exact mapGet_mapSet_ne s.rooms roomId r' _ hne

/-- C3 witness: the amended statement for user A disconnecting from the
single file room it has joined. -/
theorem C3_disconnect_witness :
    (disconnect fileServer ⟨"A", some "f", userA⟩).state.rooms
      = mapSet fileServer.rooms "f"
          { fileRoomA with users := mapDelete fileRoomA.users "A" } ∧
    (disconnect fileServer ⟨"A", some "f", userA⟩).state.rateLimiters
      = mapDelete fileServer.rateLimiters "A" ∧
    (disconnect fileServer ⟨"A", some "f", userA⟩).emits
      = [(.othersIn "f",
          userLeftEventFor fileRoomA.payload "A" (mapDelete fileRoomA.users "A"))] ∧
    (disconnect fileServer ⟨"A", some "f", userA⟩).timersArmed
      = (if (mapDelete fileRoomA.users "A").length = 0 then ["f"] else []) ∧
    mapGet (disconnect fileServer ⟨"A", some "f", userA⟩).state.rooms "other"
      = mapGet fileServer.rooms "other" := by
  have h := C3_disconnect_amended fileServer ⟨"A", some "f", userA⟩ "f" fileRoomA
    rfl rfl
  exact ⟨h.1, h.2.1, h.2.2.1, h.2.2.2.1, h.2.2.2.2 "other" (by decide)⟩

/-! ## C4: mesh-size cap -/

/-- C4: the claim (and the code's own warning message, which reads
`Mesh peer limit (6) reached — not connecting to <id>`) says a peer
appearing beyond six existing links is skipped with no link created.
Evaluating `createPeerConnectionForPeer` on a mesh that already holds six
links shows the warning is logged (flag `true`) yet a seventh link is
created and registered, with the six existing links kept as they were:
the guard is missing its early return. -/
theorem C4_meshCap_bug :
    (createPeerConnectionForPeer meshWithSix "p7" "grace" "#777777").2 = true ∧
    (createPeerConnectionForPeer meshWithSix "p7" "grace" "#777777").1.peers.length = 7 ∧
    (createPeerConnectionForPeer meshWithSix "p7" "grace" "#777777").1.peers
      = meshWithSix.peers ++ [("p7", freshLink "p7" "grace" "#777777")] := by
  decide

/-! ## C5: connection timeout -/

/-- C5 counterexample.  The claim says the 30s timeout triggers teardown:
connection released, link removed, user-visible error surfaced.  Firing
the timeout on a fresh connecting link instead leaves the link in the map
with its connection still open and no error set — only its status flips
to `failed`; the state differs from what `removePeer` (the real teardown)
would produce. -/
theorem C5_timeout_counterexample :
    ((mapGet (connectionTimeoutFires
        (createPeerConnectionForPeer emptyMesh "p" "bob" "#0000ff").1 "p").peers "p").map
      (fun l => (l.connectionStatus, l.pcOpen)))
      = some (ConnStatus.failed, true) ∧
    (connectionTimeoutFires
        (createPeerConnectionForPeer emptyMesh "p" "bob" "#0000ff").1 "p").connectionError
      = none ∧
    connectionTimeoutFires
        (createPeerConnectionForPeer emptyMesh "p" "bob" "#0000ff").1 "p"
      ≠ removePeer (createPeerConnectionForPeer emptyMesh "p" "bob" "#0000ff").1 "p" := by
  decide

/-- C5 amended: when the 30-second timeout fires on a link that has not
reached `connected`, the link's status becomes `failed` (which the UI
renders per peer) and nothing else happens: the link stays in the map
with its peer connection and candidate queues untouched, no grace timer
changes, no user-visible connection error is set, and other links are
unaffected — teardown is not triggered. -/
theorem C5_timeout_amended (st : MeshState) (peerId : String)
    (link : PeerLink) (hlink : mapGet st.peers peerId = some link)
    (hconn : link.connectionStatus ≠ ConnStatus.connected) :
    mapGet (connectionTimeoutFires st peerId).peers peerId
      = some { link with connectionStatus := ConnStatus.failed } ∧
    (connectionTimeoutFires st peerId).connectionError = st.connectionError ∧
    (connectionTimeoutFires st peerId).graceTimers = st.graceTimers ∧
    (∀ q, q ≠ peerId →
      mapGet (connectionTimeoutFires st peerId).peers q = mapGet st.peers q) := by
  have hred : connectionTimeoutFires st peerId
      = { st with peers := mapSet st.peers peerId { link with connectionStatus := ConnStatus.failed } } := by
    simp [connectionTimeoutFires, hlink, hconn]
  refine ⟨?_, ?_, ?_, ?_⟩
  · rw [hred]; exact mapGet_mapSet_self st.peers peerId _
  · rw [hred]
  · rw [hred]
  · intro q hq
    rw [hred]
    exact mapGet_mapSet_ne st.peers peerId q _ hq

/-- C5 witness: the amended statement for a fresh connecting link. -/
theorem C5_timeout_witness :
    mapGet (connectionTimeoutFires
        (createPeerConnectionForPeer emptyMesh "p" "bob" "#0000ff").1 "p").peers "p"
      = some { freshLink "p" "bob" "#0000ff" with connectionStatus := ConnStatus.failed } ∧
    (connectionTimeoutFires
        (createPeerConnectionForPeer emptyMesh "p" "bob" "#0000ff").1 "p").connectionError
      = (createPeerConnectionForPeer emptyMesh "p" "bob" "#0000ff").1.connectionError ∧
    (connectionTimeoutFires
        (createPeerConnectionForPeer emptyMesh "p" "bob" "#0000ff").1 "p").graceTimers
      = (createPeerConnectionForPeer emptyMesh "p" "bob" "#0000ff").1.graceTimers ∧
    mapGet (connectionTimeoutFires
        (createPeerConnectionForPeer emptyMesh "p" "bob" "#0000ff").1 "p").peers "q"
      = mapGet (createPeerConnectionForPeer emptyMesh "p" "bob" "#0000ff").1.peers "q" := by
  have h := C5_timeout_amended
    (createPeerConnectionForPeer emptyMesh "p" "bob" "#0000ff").1 "p"
    (freshLink "p" "bob" "#0000ff") (by decide) (by decide)
  exact ⟨h.1, h.2.1, h.2.2.1, h.2.2.2 "q" (by decide)⟩

/-! ## C6: rate limiter -/

/-- C6: for any limit `L ≥ 1` and any client/event entry, starting from
no entry or an expired window the first call is allowed and resets the
counter to 1 with `resetAt = now + 1000`; within that window the k-th
subsequent call is allowed exactly while the overall call count stays
within `L` (so calls beyond the L-th are denied); the first call at or
after `resetAt` is allowed and starts a fresh window; and
`checkRateLimit` applies exactly this step to the per-(client, event)
entry with the configured limit. -/
theorem C6_rateLimiter_window (L : Nat) (_hL : 1 ≤ L) (t₀ : Nat)
    (entry₀ : Option RateEntry)
    (hstart : entry₀ = none ∨ ∃ e, entry₀ = some e ∧ e.resetAt ≤ t₀)
    (ts : List Nat) (hts : ∀ t ∈ ts, t < t₀ + 1000)
    (t' : Nat) (ht' : t₀ + 1000 ≤ t') :
    rateStep L entry₀ t₀ = (true, ⟨1, t₀ + 1000⟩) ∧
    (rateRun L ⟨1, t₀ + 1000⟩ ts).1
      = (List.range ts.length).map (fun n => decide (1 + n < L)) ∧
    rateStep L (some (rateRun L ⟨1, t₀ + 1000⟩ ts).2) t'
      = (true, ⟨1, t' + 1000⟩) ∧
    (∀ rls sid now₂,
      (checkRateLimit rls sid "chat-message" now₂).1
        = (rateStep 5 (mapGet ((mapGet rls sid).getD []) "chat-message") now₂).1) := by
  refine ⟨?_, (rateRun_window L (t₀ + 1000) ts 1 hts).1, ?_, ?_⟩
  · rcases hstart with h | ⟨e, he, hle⟩
    · subst h; rfl
    · subst he; simp [rateStep, hle]
  · have h2 : (rateRun L ⟨1, t₀ + 1000⟩ ts).2.resetAt = t₀ + 1000 :=
      (rateRun_window L (t₀ + 1000) ts 1 hts).2
    have hle : (rateRun L ⟨1, t₀ + 1000⟩ ts).2.resetAt ≤ t' := by
      rw [h2]; exact ht'
    simp [rateStep, hle]
  · intro rls sid now₂
    rfl

/-- C6 witness: limit 2, first call at 0, three more calls inside the
window, then one at 1000. -/
theorem C6_rateLimiter_witness :
    rateStep 2 none 0 = (true, ⟨1, 1000⟩) ∧
    (rateRun 2 ⟨1, 1000⟩ [1, 2, 3]).1
      = (List.range 3).map (fun n => decide (1 + n < 2)) ∧
    rateStep 2 (some (rateRun 2 ⟨1, 1000⟩ [1, 2, 3]).2) 1000
      = (true, ⟨1, 2000⟩) ∧
    (checkRateLimit [] "A" "chat-message" 7).1
      = (rateStep 5 (mapGet ((mapGet ([] : RateLimiters) "A").getD []) "chat-message") 7).1 := by
  have h := C6_rateLimiter_window 2 (by decide) 0 none (Or.inl rfl) [1, 2, 3]
    (by decide) 1000 (by decide)
  exact ⟨h.1, h.2.1, h.2.2.1, h.2.2.2 [] "A" 7⟩

/-! ## C7: deterministic offerer -/

/-- C7: for two distinct call-room participants whose ids compare as
`A < B` under the lexicographic order the client uses, the side holding
A initiates the offer whether it learns of the pair through the room
snapshot or through a join notification, the side holding B never does,
and both handlers evaluate the same pure rule, so any re-run elects the
same side. -/
theorem C7_deterministicOfferer (A B : String)
    (hAB : jsStringLt A B = true) :
    offersOnJoin A B true = true ∧
    offersOnSnapshot A B true = true ∧
    offersOnJoin B A true = false ∧
    offersOnSnapshot B A true = false ∧
    (∀ stream : Bool,
      offersOnSnapshot A B stream = offersOnJoin A B stream ∧
      offersOnSnapshot B A stream = offersOnJoin B A stream) := by
  have hBA := jsStringLt_asymm A B hAB
  refine ⟨?_, ?_, ?_, ?_, fun stream => ⟨rfl, rfl⟩⟩ <;>
    simp [offersOnJoin, offersOnSnapshot, hAB, hBA]

/-- C7 witness: concrete ids `a < b`. -/
theorem C7_deterministicOfferer_witness :
    offersOnJoin "a" "b" true = true ∧
    offersOnSnapshot "a" "b" true = true ∧
    offersOnJoin "b" "a" true = false ∧
    offersOnSnapshot "b" "a" true = false ∧
    (offersOnSnapshot "a" "b" true = offersOnJoin "a" "b" true ∧
      offersOnSnapshot "b" "a" true = offersOnJoin "b" "a" true) := by
  have h := C7_deterministicOfferer "a" "b" (by decide)
  exact ⟨h.1, h.2.1, h.2.2.1, h.2.2.2.1, h.2.2.2.2 true⟩

/-! ## C8: membership cap -/

/-- C8: across every sequence of joins, call-leaves and disconnects from
the initial server state, every room's membership stays within the cap of
50; and a join of any kind arriving at a full room is rejected: the whole
server state is unchanged, the connection is not recorded as being in the
room, and the sender receives exactly the `room-error`. -/
theorem C8_membershipCap (ops : List RoomOp) (s : ServerState)
    (c : ConnState) (roomId : String) (now : Nat) (ct : CallType)
    (room : RoomData) (hroom : mapGet s.rooms roomId = some room)
    (hfull : MAX_ROOM_SIZE ≤ room.users.length) :
    roomsBounded (ops.foldl applyOp emptyServer) = true ∧
    ((joinRoom s c roomId now).state = s ∧
      (joinRoom s c roomId now).conn.currentRoom = none ∧
      (joinRoom s c roomId now).emits
        = [(.sender, .roomError "Room is full (max 50 users)")]) ∧
    ((joinFileRoom s c roomId now).state = s ∧
      (joinFileRoom s c roomId now).conn.currentRoom = none ∧
      (joinFileRoom s c roomId now).emits
        = [(.sender, .roomError "Room is full (max 50 users)")]) ∧
    ((joinCallRoom s c roomId ct now).state = s ∧
      (joinCallRoom s c roomId ct now).conn.currentRoom = none ∧
      (joinCallRoom s c roomId ct now).emits
        = [(.sender, .roomError "Room is full (max 50 users)")]) := by
  refine ⟨roomsBounded_foldl ops emptyServer rfl, ?_, ?_, ?_⟩
  · refine ⟨?_, ?_, ?_⟩ <;> simp [joinRoom, joinCommon, hroom, hfull]
  · refine ⟨?_, ?_, ?_⟩ <;> simp [joinFileRoom, joinCommon, hroom, hfull]
  · refine ⟨?_, ?_, ?_⟩ <;> simp [joinCallRoom, joinCommon, hroom, hfull]

/-- C8 witness: a short op sequence, and a rejected join at a concrete
full room. -/
theorem C8_membershipCap_witness :
    roomsBounded ([RoomOp.opJoinCode connA "x" 0,
      RoomOp.opJoinFile connB "y" 1,
      RoomOp.opDisconnect connA].foldl applyOp emptyServer) = true ∧
    ((joinRoom fullServer connB "full" 9).state = fullServer ∧
      (joinRoom fullServer connB "full" 9).conn.currentRoom = none ∧
      (joinRoom fullServer connB "full" 9).emits
        = [(.sender, .roomError "Room is full (max 50 users)")]) ∧
    ((joinFileRoom fullServer connB "full" 9).state = fullServer ∧
      (joinFileRoom fullServer connB "full" 9).conn.currentRoom = none ∧
      (joinFileRoom fullServer connB "full" 9).emits
        = [(.sender, .roomError "Room is full (max 50 users)")]) ∧
    ((joinCallRoom fullServer connB "full" CallType.audio 9).state = fullServer ∧
      (joinCallRoom fullServer connB "full" CallType.audio 9).conn.currentRoom = none ∧
      (joinCallRoom fullServer connB "full" CallType.audio 9).emits
        = [(.sender, .roomError "Room is full (max 50 users)")]) :=
  C8_membershipCap [RoomOp.opJoinCode connA "x" 0,
    RoomOp.opJoinFile connB "y" 1, RoomOp.opDisconnect connA]
    fullServer connB "full" 9 CallType.audio fullRoom rfl fullRoom_atCap

/-! ## C9: ICE candidate buffering -/

/-- C9 counterexample.  The claim says every candidate that arrives for
an existing link before the remote description is set is applied once the
description arrives (via offer or answer), none dropped.  On the offer
path the handler first re-creates the peer link, which resets the pending
queue: a candidate buffered before the offer (`pending = [1]`) ends up
neither applied nor pending once the offer is processed — it is dropped. -/
theorem C9_iceBuffer_counterexample :
    ((mapGet (handleIceCandidate
        (createPeerConnectionForPeer emptyMesh "p" "bob" "#0000ff").1 "p" 1).peers "p").map
      (fun l => l.pendingCandidates)) = some [1] ∧
    ((mapGet (handleOffer (handleIceCandidate
        (createPeerConnectionForPeer emptyMesh "p" "bob" "#0000ff").1 "p" 1) "p" "bob").peers "p").map
      (fun l => (l.appliedCandidates, l.pendingCandidates, l.remoteDescSet)))
      = some ([], [], true) := by
  decide

/-- C9 amended: candidates arriving for an existing link before its
remote description are buffered in arrival order; on a remote **answer**
the buffered candidates are all applied in that original order, exactly
once each, and later candidates are applied directly after them; on a
remote **offer** the link is re-created first, which discards the
candidates buffered before the offer — only candidates arriving from
then on are applied, still in order and exactly once. -/
theorem C9_iceOrdering_amended (cs ds : List Nat) (p nm col : String) :
    ((mapGet (runSignals (createPeerConnectionForPeer emptyMesh p nm col).1
        (cs.map (SignalEvent.recvCandidate p)
          ++ SignalEvent.recvAnswer p :: ds.map (SignalEvent.recvCandidate p))).peers p).map
      (fun l => (l.appliedCandidates, l.pendingCandidates, l.remoteDescSet)))
      = some (cs ++ ds, [], true) ∧
    ((mapGet (runSignals (createPeerConnectionForPeer emptyMesh p nm col).1
        (cs.map (SignalEvent.recvCandidate p)
          ++ SignalEvent.recvOffer p nm :: ds.map (SignalEvent.recvCandidate p))).peers p).map
      (fun l => (l.appliedCandidates, l.pendingCandidates, l.remoteDescSet)))
      = some (ds, [], true) := by
  have hst0 : (createPeerConnectionForPeer emptyMesh p nm col).1
      = ⟨[(p, freshLink p nm col)], [], none⟩ := by
    simp [createPeerConnectionForPeer, emptyMesh, mapSet]
  have hfresh : mapGet [(p, freshLink p nm col)] p = some (freshLink p nm col) := by
    simp [mapGet]
  have hbuf : runSignals (⟨[(p, freshLink p nm col)], [], none⟩ : MeshState)
      (cs.map (SignalEvent.recvCandidate p))
      = ⟨[(p, ⟨p, nm, col, true, false, [], .connecting, cs, true⟩)], [], none⟩ := by
    rw [runSignals_buffer cs p ⟨[(p, freshLink p nm col)], [], none⟩
      (freshLink p nm col) hfresh rfl]
    simp [freshLink, mapSet]
  constructor
  · rw [hst0, runSignals_append, hbuf]
    have hstep : runSignals
        (⟨[(p, ⟨p, nm, col, true, false, [], .connecting, cs, true⟩)], [], none⟩ : MeshState)
        (SignalEvent.recvAnswer p :: ds.map (SignalEvent.recvCandidate p))
        = runSignals (handleAnswer
            ⟨[(p, ⟨p, nm, col, true, false, [], .connecting, cs, true⟩)], [], none⟩ p)
          (ds.map (SignalEvent.recvCandidate p)) := rfl
    rw [hstep]
    have hans : handleAnswer
        (⟨[(p, ⟨p, nm, col, true, false, [], .connecting, cs, true⟩)], [], none⟩ : MeshState) p
        = ⟨[(p, ⟨p, nm, col, true, true, cs, .connecting, [], true⟩)], [], none⟩ := by
      simp [handleAnswer, mapGet, mapSet]
    rw [hans, runSignals_applyDirect ds p
      ⟨[(p, ⟨p, nm, col, true, true, cs, .connecting, [], true⟩)], [], none⟩
      ⟨p, nm, col, true, true, cs, .connecting, [], true⟩ (by simp [mapGet]) rfl]
    simp [mapGet, mapSet]
  · rw [hst0, runSignals_append, hbuf]
    have hstep : runSignals
        (⟨[(p, ⟨p, nm, col, true, false, [], .connecting, cs, true⟩)], [], none⟩ : MeshState)
        (SignalEvent.recvOffer p nm :: ds.map (SignalEvent.recvCandidate p))
        = runSignals (handleOffer
            ⟨[(p, ⟨p, nm, col, true, false, [], .connecting, cs, true⟩)], [], none⟩ p nm)
          (ds.map (SignalEvent.recvCandidate p)) := rfl
    rw [hstep]
    have hoff : handleOffer
        (⟨[(p, ⟨p, nm, col, true, false, [], .connecting, cs, true⟩)], [], none⟩ : MeshState) p nm
        = ⟨[(p, ⟨p, nm, "", true, true, [], .connecting, [], true⟩)], [], none⟩ := by
      simp [handleOffer, createPeerConnectionForPeer, freshLink, mapGet, mapSet]
    rw [hoff, runSignals_applyDirect ds p
      ⟨[(p, ⟨p, nm, "", true, true, [], .connecting, [], true⟩)], [], none⟩
      ⟨p, nm, "", true, true, [], .connecting, [], true⟩ (by simp [mapGet]) rfl]
    simp [mapGet, mapSet]

/-! ## C10: chat relay -/

/-- C10: a `chat-message` (that passes the rate check) whose text trims
to empty is dropped entirely — the room's history is unchanged and no
`new-message` is emitted to anyone, sender included; a text with
non-whitespace content is stored and broadcast to all members (sender
included) with its text truncated to the first 500 characters. -/
theorem C10_chatRelay (s : ServerState) (c : ConnState)
    (roomId message : String) (now : Nat) (room : RoomData)
    (hallow : (checkRateLimit s.rateLimiters c.socketId "chat-message" now).1 = true)
    (hroom : mapGet s.rooms roomId = some room) :
    (message.trim = "" →
      (chatMessage s c roomId message now).state.rooms = s.rooms ∧
      (chatMessage s c roomId message now).emits = []) ∧
    (message.trim ≠ "" →
      (chatMessage s c roomId message now).emits
        = [(.allIn roomId, .newMessage (chatMessageOf c message now))] ∧
      (chatMessageOf c message now).message = message.take 500 ∧
      (chatMessage s c roomId message now).state.rooms
        = mapSet s.rooms roomId
            { room with messages := pushChat room.messages (chatMessageOf c message now) }) := by
  constructor
  · intro htrim
    constructor <;> simp [chatMessage, hallow, hroom, htrim]
  · intro htrim
    refine ⟨?_, ?_, ?_⟩
    · simp [chatMessage, hallow, hroom, htrim]
    · simp [chatMessageOf]
    · simp [chatMessage, hallow, hroom, htrim]

/-- C10 witness: a whitespace-only message and a real one against the
concrete file room. -/
theorem C10_chatRelay_witness :
    (String.trim " hi " = "" →
      (chatMessage fileServer connA "f" " hi " 3).state.rooms = fileServer.rooms ∧
      (chatMessage fileServer connA "f" " hi " 3).emits = []) ∧
    (String.trim " hi " ≠ "" →
      (chatMessage fileServer connA "f" " hi " 3).emits
        = [(.allIn "f", .newMessage (chatMessageOf connA " hi " 3))] ∧
      (chatMessageOf connA " hi " 3).message = String.take " hi " 500 ∧
      (chatMessage fileServer connA "f" " hi " 3).state.rooms
        = mapSet fileServer.rooms "f"
            { fileRoomA with
              messages := pushChat fileRoomA.messages (chatMessageOf connA " hi " 3) }) :=
  C10_chatRelay fileServer connA "f" " hi " 3 fileRoomA rfl rfl
